import Mathlib

/-!
Verification of the `ProfDAGNet` statistical profiling layer
(`caffe2/contrib/prof/prof_dag_net.cc`).

The C++ class wraps a DAG execution engine (`DAGNetBase`) and accumulates
per-operator and per-operator-type wall-clock statistics across repeated
runs of the same graph.  We give a shallow embedding: the mutable object
state becomes a structure that the run functions thread explicitly,
`float` timing accumulators become `ℚ`, the C++ `int` counters become `ℤ`,
and `CAFFE_ENFORCE` (which throws) becomes an `Except String` result paired
with the state reached at the throw point.  Wall-clock measurements and
operator execution results are oracles `timeOf : ℕ → ℚ` and
`okOf : ℕ → Bool` supplied per run.
-/

set_option autoImplicit false

namespace ProfDag

/-- Modelled from the spec: the `Stats` struct of `prof_dag_net.h` (the header
is not part of the provided sources) is an online accumulator
`{sum, sqrsum, cnt}` whose members are zero-initialised, per §3 of the spec:
"each zeroed (sum=sqrsum=count=0)". -/
structure Stats where
  sum : ℚ
  sqrsum : ℚ
  cnt : ℤ
deriving Repr, DecidableEq

/-- The zero `Stats` value (`sum = 0`, `sqrsum = 0`, `cnt = 0`). -/
def statsZero : Stats := ⟨0, 0, 0⟩

/-- The parts of an operator's `debug_def()` that the profiler reads:
its type name, its (possibly empty) instance name, and its output names. -/
structure OperatorDef where
  type : String
  name : String
  outputs : List String
deriving Repr, DecidableEq

/-- Lookup in a `CaffeMap` (`std::map`), modelled as an association list;
`d` is the value a `std::map` default-constructs on first access.
The maps built below never hold duplicate keys, so taking the first match
is faithful. -/
def mapGetD {α : Type} (d : α) : List (String × α) → String → α
  | [], _ => d
  | (k', v) :: rest, k => if k = k' then v else mapGetD d rest k

/-- `m[k] op= …` on a `CaffeMap` (`std::map`): apply `f` to the entry for
`k`, default-inserting `f d` when `k` is absent.  A `std::map` keeps its
entries sorted by key while this model appends new keys at the end; the two
agree on every lookup, and differ only in iteration order, which no claim
observes. -/
def mapUpd {α : Type} (d : α) : List (String × α) → String → (α → α) → List (String × α)
  | [], k, f => [(k, f d)]
  | (k', v) :: rest, k, f =>
      if k = k' then (k', f v) :: rest
      else (k', v) :: mapUpd d rest k f

@[simp]
theorem mapGetD_mapUpd_self {α : Type} (d : α) (m : List (String × α)) (k : String)
    (f : α → α) : mapGetD d (mapUpd d m k f) k = f (mapGetD d m k) := by
  induction m with
  | nil => simp [mapUpd, mapGetD]
  | cons p rest ih =>
      obtain ⟨k', v⟩ := p
      by_cases h : k = k' <;> simp [mapUpd, mapGetD, h, ih]

@[simp]
theorem mapGetD_mapUpd_ne {α : Type} (d : α) (m : List (String × α)) (k k' : String)
    (f : α → α) (hne : k' ≠ k) : mapGetD d (mapUpd d m k f) k' = mapGetD d m k' := by
  induction m with
  | nil => simp [mapUpd, mapGetD, hne]
  | cons p rest ih =>
      obtain ⟨k'', v⟩ := p
      by_cases h : k = k''
      · subst h
        simp [mapUpd, mapGetD, hne]
      · by_cases h' : k' = k'' <;> simp [mapUpd, mapGetD, h, h', ih]

/-- A default `OperatorDef`, standing for what an out-of-range C++
`operator_nodes_[idx]` access would yield; every use below is guarded in
bounds. -/
def opDefault : OperatorDef := ⟨"", "", []⟩

/-- The vector access `time_per_op_[idx]` (total, with the zero `Stats` as
the out-of-range value; every use below is guarded in bounds). -/
def statAt (l : List Stats) (idx : Nat) : Stats := l.getD idx statsZero

/-- The vector access `operator_nodes_[idx]` (total, with `opDefault` as the
out-of-range value; every use below is guarded in bounds). -/
def nodeAt (nodes : List OperatorDef) (idx : Nat) : OperatorDef :=
  nodes.getD idx opDefault

/-- The profiler state: `name_`, the operator nodes, `time_per_op_`
(one `Stats` per node), `time_per_op_type_` (a `CaffeMap` from type name to
`Stats`), and the run counter `runs_` (a C++ `int`). -/
structure ProfDAGNet where
  name_ : String
  operator_nodes_ : List OperatorDef
  time_per_op_ : List Stats
  time_per_op_type_ : List (String × Stats)
  runs_ : ℤ
deriving Repr, DecidableEq

instance {ε α : Type} [DecidableEq ε] [DecidableEq α] : DecidableEq (Except ε α) :=
  fun a b =>
    match a, b with
    | .ok x, .ok y => decidable_of_iff (x = y) (by simp)
    | .error e, .error f => decidable_of_iff (e = f) (by simp)
    | .ok _, .error _ => isFalse (by simp)
    | .error _, .ok _ => isFalse (by simp)

/-- The constructor `ProfDAGNet::ProfDAGNet`: `time_per_op_` is sized to
`operator_nodes_.size()` with value-initialised (zero) `Stats`; the map and
the run counter start empty/zero (their in-class initialisers live in the
missing header, per §3 of the spec they start empty and at zero). -/
def profDAGNetInit (name : String) (nodes : List OperatorDef) : ProfDAGNet :=
  { name_ := name
    operator_nodes_ := nodes
    time_per_op_ := List.replicate nodes.length statsZero
    time_per_op_type_ := []
    runs_ := 0 }

/-- The message `CAFFE_ENFORCE` produces for a `time_per_op_` size mismatch:
"Data collected for `n` ops, expected `m` ops." -/
def sizeMismatchMsg (n m : Nat) : String :=
  "Data collected for " ++ toString n ++ " ops, expected " ++ toString m ++ " ops."

/-- The message `CAFFE_ENFORCE` produces in `RunAt` for an out-of-range
operator index. -/
def opRangeMsg (n idx : Nat) : String :=
  "Expecting " ++ toString n ++ " ops, but op #" ++ toString idx ++ " was given."

/-- The loop body of `ProfDAGNet::RunAt`, iterating over the chain with the
running `success` flag.  On a warm-up run (`runs_ <= 1`) the operator runs
untimed; otherwise its elapsed time `timeOf idx` is accumulated into
`time_per_op_[idx]` after the bound `CAFFE_ENFORCE`, whose failure throws
(modelled by returning `Except.error` together with the state reached so
far). -/
def runAtGo (timeOf : Nat → ℚ) (okOf : Nat → Bool) :
    ProfDAGNet → List Nat → Bool → ProfDAGNet × Except String Bool
  | net, [], success => (net, .ok success)
  | net, idx :: rest, success =>
      if net.runs_ ≤ 1 then
        runAtGo timeOf okOf net rest (success && okOf idx)
      else
        let success := success && okOf idx
        let spent := timeOf idx
        if idx < net.time_per_op_.length then
          let s := statAt net.time_per_op_ idx
          runAtGo timeOf okOf
            { net with
              time_per_op_ := net.time_per_op_.set idx
                { s with sum := s.sum + spent, sqrsum := s.sqrsum + spent * spent } }
            rest success
        else (net, .error (opRangeMsg net.time_per_op_.length idx))

/-- `ProfDAGNet::RunAt`: execute one chain, starting from `success = true`. -/
def RunAt (net : ProfDAGNet) (chain : List Nat) (timeOf : Nat → ℚ)
    (okOf : Nat → Bool) : ProfDAGNet × Except String Bool :=
  runAtGo timeOf okOf net chain true

/-- Modelled from the spec: `DAGNetBase::DoRunAsync` (the external engine,
outside the provided sources) dispatches every chain of the run through the
`RunAt` hook and reports overall success as the conjunction of the chain
results (§4.1/§6); a thrown `CAFFE_ENFORCE` propagates, skipping the
remaining chains. -/
def baseRunGo (timeOf : Nat → ℚ) (okOf : Nat → Bool) :
    ProfDAGNet → List (List Nat) → Bool → ProfDAGNet × Except String Bool
  | net, [], acc => (net, .ok acc)
  | net, chain :: rest, acc =>
      match RunAt net chain timeOf okOf with
      | (net', .ok b) => baseRunGo timeOf okOf net' rest (acc && b)
      | (net', .error e) => (net', .error e)

/-- Modelled from the spec: the external engine's full-run entry point, with
the chain partition of this run supplied as `chains`. -/
def DAGNetBaseDoRunAsync (net : ProfDAGNet) (chains : List (List Nat))
    (timeOf : Nat → ℚ) (okOf : Nat → Bool) : ProfDAGNet × Except String Bool :=
  baseRunGo timeOf okOf net chains true

/-- The first aggregation loop of `ProfDAGNet::DoRunAsync`: for each node
index, add `time_per_op_[idx].sum - snapshot[idx].sum` into
`time_per_op_type_run[op_type]` and bump `time_per_op_type_[op_type].cnt`.
`live` is `time_per_op_` after the run, `snap` the pre-run copy
`time_per_op_run`. -/
def aggLoop1 (live snap : List Stats) :
    List OperatorDef → Nat → List (String × ℚ) → List (String × Stats) →
      List (String × ℚ) × List (String × Stats)
  | [], _, runMap, typMap => (runMap, typMap)
  | node :: rest, idx, runMap, typMap =>
      let delta := (statAt live idx).sum - (statAt snap idx).sum
      aggLoop1 live snap rest (idx + 1)
        (mapUpd 0 runMap node.type (fun v => v + delta))
        (mapUpd statsZero typMap node.type (fun s => { s with cnt := s.cnt + 1 }))

/-- The second aggregation loop of `ProfDAGNet::DoRunAsync`: for each entry
`(type, runTotal)` of `time_per_op_type_run`, do
`time_per_op_type_[type].sum += runTotal` and
`time_per_op_type_[type].sqrsum += runTotal * runTotal` (two separate map
accesses in the C++). -/
def aggLoop2 : List (String × ℚ) → List (String × Stats) → List (String × Stats)
  | [], typMap => typMap
  | (k, v) :: rest, typMap =>
      aggLoop2 rest
        (mapUpd statsZero
          (mapUpd statsZero typMap k (fun s => { s with sum := s.sum + v }))
          k (fun s => { s with sqrsum := s.sqrsum + v * v }))

/-- `ProfDAGNet::DoRunAsync`: bump `runs_`; on a warm-up run (`runs_ <= 1`)
just delegate to the base engine (then `ValidateOpTensorDevices`, which only
logs and is not modelled); otherwise enforce
`time_per_op_.size() == operator_nodes_.size()`, copy `time_per_op_`, run the
base engine, and fold this run's per-type deltas into `time_per_op_type_`,
returning the base run's success flag unchanged. -/
def DoRunAsync (net : ProfDAGNet) (chains : List (List Nat)) (timeOf : Nat → ℚ)
    (okOf : Nat → Bool) : ProfDAGNet × Except String Bool :=
  let net := { net with runs_ := net.runs_ + 1 }
  if net.runs_ ≤ 1 then
    DAGNetBaseDoRunAsync net chains timeOf okOf
  else if net.time_per_op_.length = net.operator_nodes_.length then
    let time_per_op_run := net.time_per_op_
    match DAGNetBaseDoRunAsync net chains timeOf okOf with
    | (net', .ok success) =>
        let agg :=
          aggLoop1 net'.time_per_op_ time_per_op_run net'.operator_nodes_ 0 []
            net'.time_per_op_type_
        ({ net' with time_per_op_type_ := aggLoop2 agg.1 agg.2 }, .ok success)
    | (net', .error e) => (net', .error e)
  else
    (net, .error (sizeMismatchMsg net.time_per_op_.length net.operator_nodes_.length))

/-- One record of the `ProfDAGProtos` report.  The C++ stores
`stddev = sqrt(sqrsum/(runs_-1) - mean*mean)`; square roots are not exactly
representable in the executable model, so the record carries the radicand
`stddevSqr` and theorems speak of `Real.sqrt stddevSqr`. -/
structure ProfDAGProto where
  name : String
  mean : ℚ
  stddevSqr : ℚ
deriving Repr, DecidableEq

/-- `ProfDAGNet::ProtoMsg`: `mean = sum/(runs_ - 1)` and the stddev radicand
`sqrsum/(runs_ - 1) - mean*mean`, with no guard on `runs_`. -/
def ProtoMsg (net : ProfDAGNet) (op_stat : String × Stats) : ProfDAGProto :=
  let mean := op_stat.2.sum / ((net.runs_ - 1 : ℤ) : ℚ)
  { name := op_stat.1
    mean := mean
    stddevSqr := op_stat.2.sqrsum / ((net.runs_ - 1 : ℤ) : ℚ) - mean * mean }

/-- `ProfDAGNet::GetOperatorStats`: one `ProtoMsg` per entry of
`time_per_op_type_`, with no guard on `runs_`. -/
def GetOperatorStats (net : ProfDAGNet) : List ProfDAGProto :=
  net.time_per_op_type_.map (fun item => ProtoMsg net item)

/-- The composite record name `name_ + "___" + to_string(idx) + "___" + op_type`
built by `GetPerOperatorCost`. -/
def perOpCostName (net : ProfDAGNet) (idx : Nat) : String :=
  net.name_ ++ "___" ++ toString idx ++ "___" ++ (nodeAt net.operator_nodes_ idx).type

/-- `ProfDAGNet::GetPerOperatorCost`: enforce the size precondition, then
emit one `ProtoMsg` per node index, named by the composite key; there is no
guard on `runs_`. -/
def GetPerOperatorCost (net : ProfDAGNet) : Except String (List ProfDAGProto) :=
  if net.time_per_op_.length = net.operator_nodes_.length then
    .ok ((List.range net.operator_nodes_.length).map (fun idx =>
      ProtoMsg net (perOpCostName net idx, statAt net.time_per_op_ idx)))
  else
    .error (sizeMismatchMsg net.time_per_op_.length net.operator_nodes_.length)

/-- One per-node line of `ProfDAGNet::PrintStats`: the display label
(`def.name()` if nonempty, else the first output, else "NO_OUTPUT"), the
mean `sum/measured_runs` and the stddev radicand. -/
structure PrintOpLine where
  printName : String
  opType : String
  mean : ℚ
  stddevSqr : ℚ
deriving Repr, DecidableEq

/-- One per-type line of `ProfDAGNet::PrintStats`: mean, stddev radicand and
the average per-run invocation count `cnt / measured_runs` (C++ `int`
division; every `cnt` here is non-negative). -/
structure PrintTypeLine where
  opType : String
  mean : ℚ
  stddevSqr : ℚ
  countPerIter : ℤ
deriving Repr, DecidableEq

/-- `ProfDAGNet::PrintStats`: enforce the size precondition and `runs_ > 1`,
then emit the per-node lines (dividing by `measured_runs = runs_ - 1`) and
the per-type lines. -/
def PrintStats (net : ProfDAGNet) :
    Except String (List PrintOpLine × List PrintTypeLine) :=
  if net.time_per_op_.length = net.operator_nodes_.length then
    if net.runs_ > 1 then
      let measured_runs : ℤ := net.runs_ - 1
      .ok
        ((List.range net.operator_nodes_.length).map (fun idx =>
          let def_ := nodeAt net.operator_nodes_ idx
          let print_name :=
            if def_.name.length ≠ 0 then def_.name
            else match def_.outputs with
              | o :: _ => o
              | [] => "NO_OUTPUT"
          let s := statAt net.time_per_op_ idx
          let mean := s.sum / (measured_runs : ℚ)
          { printName := print_name
            opType := def_.type
            mean := mean
            stddevSqr := s.sqrsum / (measured_runs : ℚ) - mean * mean }),
        net.time_per_op_type_.map (fun item =>
          let mean := item.2.sum / (measured_runs : ℚ)
          { opType := item.1
            mean := mean
            stddevSqr := item.2.sqrsum / (measured_runs : ℚ) - mean * mean
            countPerIter := item.2.cnt / measured_runs }))
    else .error ("# of runs: " ++ toString net.runs_ ++ ", expected > 1.")
  else
    .error (sizeMismatchMsg net.time_per_op_.length net.operator_nodes_.length)

/-- `ProfDAGNet::~ProfDAGNet`: when `runs_ <= 1` only the "Insufficient runs
to produce meaningful data." notice is logged and no statistics are
computed (`none`); otherwise the destructor calls `PrintStats`. -/
def destructorReport (net : ProfDAGNet) :
    Option (Except String (List PrintOpLine × List PrintTypeLine)) :=
  if net.runs_ ≤ 1 then none else some (PrintStats net)

/-! ## Helper lemmas -/

/-- The pure effect of one timed chain on `time_per_op_`: each index of the
chain receives `sum += timeOf idx` and `sqrsum += timeOf idx * timeOf idx`,
in chain order. -/
def accumChainTimes (timeOf : Nat → ℚ) : List Stats → List Nat → List Stats
  | l, [] => l
  | l, idx :: rest =>
      let s := statAt l idx
      accumChainTimes timeOf
        (l.set idx
          { s with sum := s.sum + timeOf idx,
                   sqrsum := s.sqrsum + timeOf idx * timeOf idx }) rest

/-- The pure effect of a whole run's chains on `time_per_op_`. -/
def accumRunTimes (timeOf : Nat → ℚ) (l : List Stats) (chains : List (List Nat)) :
    List Stats :=
  chains.foldl (accumChainTimes timeOf) l

@[simp]
theorem length_accumChainTimes (timeOf : Nat → ℚ) (l : List Stats) (chain : List Nat) :
    (accumChainTimes timeOf l chain).length = l.length := by
  induction chain generalizing l with
  | nil => rfl
  | cons i rest ih => simp [accumChainTimes, ih]

@[simp]
theorem length_accumRunTimes (timeOf : Nat → ℚ) (l : List Stats)
    (chains : List (List Nat)) : (accumRunTimes timeOf l chains).length = l.length := by
  induction chains generalizing l with
  | nil => rfl
  | cons c rest ih =>
      simpa [accumRunTimes, List.foldl_cons] using ih (accumChainTimes timeOf l c)

theorem statAt_set_self (l : List Stats) (j : Nat) (v : Stats)
    (h : j < l.length) : statAt (l.set j v) j = v := by
  simp [statAt, List.getD_eq_getElem?_getD, List.getElem?_set_eq_of_lt, h]

theorem statAt_set_ne (l : List Stats) (i j : Nat) (v : Stats)
    (h : j ≠ i) : statAt (l.set j v) i = statAt l i := by
  simp [statAt, List.getD_eq_getElem?_getD, List.getElem?_set_ne, h]

/-- On a warm-up run the chain hook leaves the state untouched and just
folds the operators' success flags. -/
theorem runAtGo_warm (timeOf : Nat → ℚ) (okOf : Nat → Bool) (net : ProfDAGNet)
    (chain : List Nat) (b : Bool) (h : net.runs_ ≤ 1) :
    runAtGo timeOf okOf net chain b = (net, .ok (b && chain.all okOf)) := by
  induction chain generalizing b with
  | nil => simp [runAtGo]
  | cons i rest ih => simp [runAtGo, h, ih, Bool.and_assoc]

/-- On a measured run with every chain index in bounds, the chain hook
accumulates exactly `accumChainTimes` and folds the success flags; note the
state does not depend on `okOf` and the flag does not depend on `timeOf`. -/
theorem runAtGo_measured (timeOf : Nat → ℚ) (okOf : Nat → Bool) (net : ProfDAGNet)
    (chain : List Nat) (b : Bool) (h : 1 < net.runs_)
    (hb : ∀ i ∈ chain, i < net.time_per_op_.length) :
    runAtGo timeOf okOf net chain b =
      ({ net with time_per_op_ := accumChainTimes timeOf net.time_per_op_ chain },
        .ok (b && chain.all okOf)) := by
  induction chain generalizing net b with
  | nil => simp [runAtGo, accumChainTimes]
  | cons i rest ih =>
      have hnot : ¬ net.runs_ ≤ 1 := by omega
      have hi : i < net.time_per_op_.length := hb i (by simp)
      rw [runAtGo, if_neg hnot, if_pos hi]
      show runAtGo timeOf okOf _ rest (b && okOf i) = _
      rw [ih _ (b && okOf i) (by exact h) (by
        intro j hj
        simpa using hb j (by simp [hj]))]
      simp [accumChainTimes, Bool.and_assoc]

/-- The chain hook never changes the length of `time_per_op_`, on any path
(including a thrown bound check). -/
theorem runAtGo_length (timeOf : Nat → ℚ) (okOf : Nat → Bool) (chain : List Nat)
    (net : ProfDAGNet) (b : Bool) :
    (runAtGo timeOf okOf net chain b).1.time_per_op_.length
      = net.time_per_op_.length := by
  induction chain generalizing net b with
  | nil => rfl
  | cons i rest ih =>
      rw [runAtGo]
      by_cases h1 : net.runs_ ≤ 1
      · simp [h1, ih]
      · by_cases h2 : i < net.time_per_op_.length
        · simp [h1, h2, ih]
        · simp [h1, h2]

/-- The chain hook never changes `runs_`, on any path. -/
theorem runAtGo_runs (timeOf : Nat → ℚ) (okOf : Nat → Bool) (chain : List Nat)
    (net : ProfDAGNet) (b : Bool) :
    (runAtGo timeOf okOf net chain b).1.runs_ = net.runs_ := by
  induction chain generalizing net b with
  | nil => rfl
  | cons i rest ih =>
      rw [runAtGo]
      by_cases h1 : net.runs_ ≤ 1
      · simp [h1, ih]
      · by_cases h2 : i < net.time_per_op_.length
        · simp [h1, h2, ih]
        · simp [h1, h2]

/-- The chain hook never changes the `cnt` field of any `time_per_op_`
entry, on any path. -/
theorem runAtGo_cnt (timeOf : Nat → ℚ) (okOf : Nat → Bool) (chain : List Nat)
    (net : ProfDAGNet) (b : Bool) (idx : Nat) :
    (statAt (runAtGo timeOf okOf net chain b).1.time_per_op_ idx).cnt
      = (statAt net.time_per_op_ idx).cnt := by
  induction chain generalizing net b with
  | nil => rfl
  | cons i rest ih =>
      by_cases h1 : net.runs_ ≤ 1
      · rw [runAtGo, if_pos h1, ih]
      · by_cases h2 : i < net.time_per_op_.length
        · simp only [runAtGo, h1, h2]
          simp only [if_false, if_true]
          rw [ih]
          by_cases hidx : idx = i
          · subst hidx
            simp [statAt_set_self _ _ _ h2]
          · simp [statAt_set_ne _ _ _ _ (by omega : i ≠ idx)]
        · simp [runAtGo, h1, h2]

/-- On a warm-up run the whole base-engine dispatch leaves the state
untouched and conjoins the chain flags. -/
theorem baseRunGo_warm (timeOf : Nat → ℚ) (okOf : Nat → Bool)
    (chains : List (List Nat)) (net : ProfDAGNet) (b : Bool) (h : net.runs_ ≤ 1) :
    baseRunGo timeOf okOf net chains b
      = (net, .ok (b && chains.all (fun c => c.all okOf))) := by
  induction chains generalizing b with
  | nil => simp [baseRunGo]
  | cons c rest ih =>
      rw [baseRunGo, RunAt, runAtGo_warm _ _ _ _ _ h]
      simp [ih, Bool.and_assoc]

/-- On a measured run with all chain indices in bounds, the base-engine
dispatch accumulates `accumRunTimes` and conjoins the chain flags; the
state part does not depend on `okOf`. -/
theorem baseRunGo_measured (timeOf : Nat → ℚ) (okOf : Nat → Bool)
    (chains : List (List Nat)) (net : ProfDAGNet) (b : Bool) (h : 1 < net.runs_)
    (hb : ∀ c ∈ chains, ∀ i ∈ c, i < net.time_per_op_.length) :
    baseRunGo timeOf okOf net chains b =
      ({ net with time_per_op_ := accumRunTimes timeOf net.time_per_op_ chains },
        .ok (b && chains.all (fun c => c.all okOf))) := by
  induction chains generalizing net b with
  | nil => simp [baseRunGo, accumRunTimes]
  | cons c rest ih =>
      rw [baseRunGo, RunAt, runAtGo_measured _ _ _ _ _ h (hb c (by simp))]
      show baseRunGo timeOf okOf _ rest (b && (true && c.all okOf)) = _
      rw [ih _ (b && (true && c.all okOf)) (by exact h) (by
        intro c' hc' i hi
        simpa using hb c' (by simp [hc']) i hi)]
      simp [accumRunTimes, Bool.and_assoc]

/-- The base-engine dispatch never changes the length of `time_per_op_`,
on any path. -/
theorem baseRunGo_length (timeOf : Nat → ℚ) (okOf : Nat → Bool)
    (chains : List (List Nat)) (net : ProfDAGNet) (b : Bool) :
    (baseRunGo timeOf okOf net chains b).1.time_per_op_.length
      = net.time_per_op_.length := by
  induction chains generalizing net b with
  | nil => rfl
  | cons c rest ih =>
      rcases hr : RunAt net c timeOf okOf with ⟨net', r⟩
      have hlen : net'.time_per_op_.length = net.time_per_op_.length := by
        have h2 := runAtGo_length timeOf okOf c net true
        rw [RunAt] at hr
        rw [hr] at h2
        exact h2
      rw [baseRunGo, hr]
      cases r with
      | ok bb =>
          show (baseRunGo timeOf okOf net' rest (b && bb)).1.time_per_op_.length = _
          rw [ih, hlen]
      | error e => exact hlen

/-- The base-engine dispatch never changes `runs_`, on any path. -/
theorem baseRunGo_runs (timeOf : Nat → ℚ) (okOf : Nat → Bool)
    (chains : List (List Nat)) (net : ProfDAGNet) (b : Bool) :
    (baseRunGo timeOf okOf net chains b).1.runs_ = net.runs_ := by
  induction chains generalizing net b with
  | nil => rfl
  | cons c rest ih =>
      rcases hr : RunAt net c timeOf okOf with ⟨net', r⟩
      have hruns : net'.runs_ = net.runs_ := by
        have h2 := runAtGo_runs timeOf okOf c net true
        rw [RunAt] at hr
        rw [hr] at h2
        exact h2
      rw [baseRunGo, hr]
      cases r with
      | ok bb =>
          show (baseRunGo timeOf okOf net' rest (b && bb)).1.runs_ = _
          rw [ih, hruns]
      | error e => exact hruns

/-- The base-engine dispatch never changes the `cnt` field of any
`time_per_op_` entry, on any path. -/
theorem baseRunGo_cnt (timeOf : Nat → ℚ) (okOf : Nat → Bool)
    (chains : List (List Nat)) (net : ProfDAGNet) (b : Bool) (idx : Nat) :
    (statAt (baseRunGo timeOf okOf net chains b).1.time_per_op_ idx).cnt
      = (statAt net.time_per_op_ idx).cnt := by
  induction chains generalizing net b with
  | nil => rfl
  | cons c rest ih =>
      rcases hr : RunAt net c timeOf okOf with ⟨net', r⟩
      have hcnt : (statAt net'.time_per_op_ idx).cnt
          = (statAt net.time_per_op_ idx).cnt := by
        have h2 := runAtGo_cnt timeOf okOf c net true idx
        rw [RunAt] at hr
        rw [hr] at h2
        exact h2
      rw [baseRunGo, hr]
      cases r with
      | ok bb =>
          show (statAt (baseRunGo timeOf okOf net' rest (b && bb)).1.time_per_op_ idx).cnt = _
          rw [ih, hcnt]
      | error e => exact hcnt

/-- Characterization of a warm-up full run: only `runs_` changes, and the
flag is the conjunction over all chains. -/
theorem DoRunAsync_warm (net : ProfDAGNet) (chains : List (List Nat))
    (timeOf : Nat → ℚ) (okOf : Nat → Bool) (h : net.runs_ ≤ 0) :
    DoRunAsync net chains timeOf okOf =
      ({ net with runs_ := net.runs_ + 1 },
        .ok (chains.all (fun c => c.all okOf))) := by
  have h1 : net.runs_ + 1 ≤ 1 := by omega
  simp only [DoRunAsync]
  rw [if_pos (by simpa using h1), DAGNetBaseDoRunAsync,
    baseRunGo_warm _ _ _ _ _ (by simpa using h1)]
  simp

/-- Characterization of a measured full run whose size precondition holds
and whose chains stay in bounds: `runs_` is bumped, `time_per_op_` gains the
chain accumulations, `time_per_op_type_` gains the aggregated per-type run
totals, and the flag is the base run's conjunction.  The state part does not
mention `okOf`. -/
theorem DoRunAsync_measured (net : ProfDAGNet) (chains : List (List Nat))
    (timeOf : Nat → ℚ) (okOf : Nat → Bool) (h : 1 ≤ net.runs_)
    (hlen : net.time_per_op_.length = net.operator_nodes_.length)
    (hb : ∀ c ∈ chains, ∀ i ∈ c, i < net.time_per_op_.length) :
    DoRunAsync net chains timeOf okOf =
      ({ net with
          runs_ := net.runs_ + 1,
          time_per_op_ := accumRunTimes timeOf net.time_per_op_ chains,
          time_per_op_type_ :=
            aggLoop2
              (aggLoop1 (accumRunTimes timeOf net.time_per_op_ chains)
                net.time_per_op_ net.operator_nodes_ 0 [] net.time_per_op_type_).1
              (aggLoop1 (accumRunTimes timeOf net.time_per_op_ chains)
                net.time_per_op_ net.operator_nodes_ 0 [] net.time_per_op_type_).2 },
        .ok (chains.all (fun c => c.all okOf))) := by
  have h1 : ¬ (net.runs_ + 1 ≤ 1) := by omega
  simp only [DoRunAsync]
  rw [if_neg (by simpa using h1), if_pos (by simpa using hlen), DAGNetBaseDoRunAsync,
    baseRunGo_measured _ _ _ _ _ (by simp; omega) (by simpa using hb)]
  simp

/-- A full run never changes the length of `time_per_op_` (the vector is
never resized), on any path. -/
theorem DoRunAsync_length (net : ProfDAGNet) (chains : List (List Nat))
    (timeOf : Nat → ℚ) (okOf : Nat → Bool) :
    (DoRunAsync net chains timeOf okOf).1.time_per_op_.length
      = net.time_per_op_.length := by
  simp only [DoRunAsync]
  by_cases h1 : net.runs_ + 1 ≤ 1
  · rw [if_pos (by simpa using h1), DAGNetBaseDoRunAsync]
    exact baseRunGo_length _ _ _ _ _
  · rw [if_neg (by simpa using h1)]
    by_cases h2 : net.time_per_op_.length = net.operator_nodes_.length
    · rw [if_pos (by simpa using h2)]
      rcases hr : DAGNetBaseDoRunAsync { net with runs_ := net.runs_ + 1 } chains
          timeOf okOf with ⟨net', r⟩
      have hlen : net'.time_per_op_.length = net.time_per_op_.length := by
        have h3 := baseRunGo_length timeOf okOf chains
          { net with runs_ := net.runs_ + 1 } true
        rw [DAGNetBaseDoRunAsync] at hr
        rw [hr] at h3
        simpa using h3
      cases r with
      | ok bb => exact hlen
      | error e => exact hlen
    · rw [if_neg (by simpa using h2)]

/-- A full run never changes the `cnt` field of any `time_per_op_` entry,
on any path. -/
theorem DoRunAsync_cnt (net : ProfDAGNet) (chains : List (List Nat))
    (timeOf : Nat → ℚ) (okOf : Nat → Bool) (idx : Nat) :
    (statAt (DoRunAsync net chains timeOf okOf).1.time_per_op_ idx).cnt
      = (statAt net.time_per_op_ idx).cnt := by
  simp only [DoRunAsync]
  by_cases h1 : net.runs_ + 1 ≤ 1
  · rw [if_pos (by simpa using h1), DAGNetBaseDoRunAsync]
    exact baseRunGo_cnt _ _ _ _ _ _
  · rw [if_neg (by simpa using h1)]
    by_cases h2 : net.time_per_op_.length = net.operator_nodes_.length
    · rw [if_pos (by simpa using h2)]
      rcases hr : DAGNetBaseDoRunAsync { net with runs_ := net.runs_ + 1 } chains
          timeOf okOf with ⟨net', r⟩
      have hcnt : (statAt net'.time_per_op_ idx).cnt
          = (statAt net.time_per_op_ idx).cnt := by
        have h3 := baseRunGo_cnt timeOf okOf chains
          { net with runs_ := net.runs_ + 1 } true idx
        rw [DAGNetBaseDoRunAsync] at hr
        rw [hr] at h3
        simpa using h3
      cases r with
      | ok bb => exact hcnt
      | error e => exact hcnt
    · rw [if_neg (by simpa using h2)]

/-- A full run always increments `runs_` by exactly one, on any path. -/
theorem DoRunAsync_runs (net : ProfDAGNet) (chains : List (List Nat))
    (timeOf : Nat → ℚ) (okOf : Nat → Bool) :
    (DoRunAsync net chains timeOf okOf).1.runs_ = net.runs_ + 1 := by
  simp only [DoRunAsync]
  by_cases h1 : net.runs_ + 1 ≤ 1
  · rw [if_pos (by simpa using h1), DAGNetBaseDoRunAsync]
    have h3 := baseRunGo_runs timeOf okOf chains { net with runs_ := net.runs_ + 1 } true
    simpa using h3
  · rw [if_neg (by simpa using h1)]
    by_cases h2 : net.time_per_op_.length = net.operator_nodes_.length
    · rw [if_pos (by simpa using h2)]
      rcases hr : DAGNetBaseDoRunAsync { net with runs_ := net.runs_ + 1 } chains
          timeOf okOf with ⟨net', r⟩
      have hruns : net'.runs_ = net.runs_ + 1 := by
        have h3 := baseRunGo_runs timeOf okOf chains
          { net with runs_ := net.runs_ + 1 } true
        rw [DAGNetBaseDoRunAsync] at hr
        rw [hr] at h3
        simpa using h3
      cases r with
      | ok bb => exact hruns
      | error e => exact hruns
    · rw [if_neg (by simpa using h2)]

theorem statAt_map_cnt_sum (l : List Stats) (c : ℤ) (idx : Nat) :
    (statAt (l.map (fun s' => { s' with cnt := c })) idx).sum = (statAt l idx).sum := by
  rcases Nat.lt_or_ge idx l.length with hlt | hge
  · simp [statAt, List.getD_eq_getElem?_getD, List.getElem?_map,
      List.getElem?_eq_getElem, hlt]
  · have h1 : l[idx]? = none := List.getElem?_eq_none hge
    have h2 : (l.map (fun s' => { s' with cnt := c }))[idx]? = none := by
      simp [List.getElem?_map, h1]
    simp [statAt, List.getD_eq_getElem?_getD, h1, h2, statsZero]

theorem statAt_map_cnt_sqrsum (l : List Stats) (c : ℤ) (idx : Nat) :
    (statAt (l.map (fun s' => { s' with cnt := c })) idx).sqrsum
      = (statAt l idx).sqrsum := by
  rcases Nat.lt_or_ge idx l.length with hlt | hge
  · simp [statAt, List.getD_eq_getElem?_getD, List.getElem?_map,
      List.getElem?_eq_getElem, hlt]
  · have h1 : l[idx]? = none := List.getElem?_eq_none hge
    have h2 : (l.map (fun s' => { s' with cnt := c }))[idx]? = none := by
      simp [List.getElem?_map, h1]
    simp [statAt, List.getD_eq_getElem?_getD, h1, h2, statsZero]

/-- The per-node section of `PrintStats` is unchanged when every
`time_per_op_` entry's `cnt` field is overwritten: the per-node means and
stddevs never read `cnt`. -/
theorem printStats_cnt_indep (net : ProfDAGNet) (c : ℤ) :
    (PrintStats { net with
        time_per_op_ := net.time_per_op_.map (fun s' => { s' with cnt := c }) }).toOption.map
          Prod.fst
      = (PrintStats net).toOption.map Prod.fst := by
  by_cases hlen : net.time_per_op_.length = net.operator_nodes_.length
  · by_cases hruns : net.runs_ > 1
    · simp only [PrintStats]
      rw [if_pos (by simpa using hlen), if_pos (by simpa using hruns),
        if_pos hlen, if_pos hruns]
      simp only [Except.toOption, Option.map]
      simp only [statAt_map_cnt_sum, statAt_map_cnt_sqrsum]
    · simp only [PrintStats]
      rw [if_pos (by simpa using hlen), if_neg (by simpa using hruns),
        if_pos hlen, if_neg hruns]
  · simp only [PrintStats]
    rw [if_neg (by simpa using hlen), if_neg hlen]
    simp [Except.toOption]

/-! ## Concrete nets used by the claims -/

/-- An operator node of type "Add" with no instance name and no outputs. -/
def addOp : OperatorDef := ⟨"Add", "", []⟩

/-- A freshly constructed one-node net. -/
def oneOpNet0 : ProfDAGNet := profDAGNetInit "ex" [addOp]

/-- `oneOpNet0` after exactly one (warm-up) run. -/
def oneOpWarm : ProfDAGNet :=
  (DoRunAsync oneOpNet0 [[0]] (fun _ => 0) (fun _ => true)).1

/-- `oneOpWarm` after a measured run in which the operator takes 4 ms. -/
def oneOpRun4 : ProfDAGNet :=
  (DoRunAsync oneOpWarm [[0]] (fun _ => 4) (fun _ => true)).1

/-- `oneOpRun4` after a further measured run in which the operator takes
6 ms. -/
def oneOpRun46 : ProfDAGNet :=
  (DoRunAsync oneOpRun4 [[0]] (fun _ => 6) (fun _ => true)).1

/-- A freshly constructed net with two nodes of the same type "Add". -/
def c8Net : ProfDAGNet := profDAGNetInit "ex" [addOp, addOp]

/-- The two-"Add"-node net of claim C3, with arbitrary accumulated per-op
stats `s0, s1` and per-type map `m`, after its warm-up run (`runs_ = 1`). -/
def twoAddNet (s0 s1 : Stats) (m : List (String × Stats)) : ProfDAGNet :=
  { name_ := "ex"
    operator_nodes_ := [addOp, addOp]
    time_per_op_ := [s0, s1]
    time_per_op_type_ := m
    runs_ := 1 }

/-- A net whose `time_per_op_` length (0) disagrees with its node count (1),
after its warm-up run. -/
def c2BadNet : ProfDAGNet :=
  { name_ := "ex"
    operator_nodes_ := [addOp]
    time_per_op_ := []
    time_per_op_type_ := []
    runs_ := 1 }

/-- A two-node net in a measured-run state (`runs_ = 2`). -/
def c5Net : ProfDAGNet :=
  { name_ := "ex"
    operator_nodes_ := [addOp, addOp]
    time_per_op_ := [statsZero, statsZero]
    time_per_op_type_ := []
    runs_ := 2 }

/-! ## Claims -/

/-- C1, counterexample: after exactly one (warm-up) run, `measuredRuns = 0`,
yet `GetPerOperatorCost()` does not short-circuit to an empty "no data"
outcome — it returns a non-empty report computed by `ProtoMsg`, whose mean
divides by `runs_ - 1 = 0`. -/
theorem C1_counterexample :
    oneOpWarm.runs_ - 1 = 0 ∧ GetPerOperatorCost oneOpWarm ≠ .ok [] := by
  refine ⟨?_, ?_⟩ <;>
    norm_num [oneOpWarm, oneOpNet0, profDAGNetInit, DoRunAsync, DAGNetBaseDoRunAsync,
      baseRunGo, RunAt, runAtGo, statsZero, GetPerOperatorCost]

/-- C1, amended: after exactly one run the teardown report short-circuits
to `none` and `GetOperatorStats()` yields the empty list (its per-type map
is still empty), but `GetPerOperatorCost()` performs no `measuredRuns`
guard: it returns one record per node, computed by the `ProtoMsg` formula
whose denominator `runs_ - 1` is `0`. -/
theorem C1_amended_reporting :
    GetOperatorStats oneOpWarm = []
    ∧ destructorReport oneOpWarm = none
    ∧ oneOpWarm.runs_ - 1 = 0
    ∧ GetPerOperatorCost oneOpWarm
        = .ok [ProtoMsg oneOpWarm
            (perOpCostName oneOpWarm 0, statAt oneOpWarm.time_per_op_ 0)] := by
  refine ⟨?_, ?_, ?_, ?_⟩ <;>
    norm_num [oneOpWarm, oneOpNet0, profDAGNetInit, DoRunAsync, DAGNetBaseDoRunAsync,
      baseRunGo, RunAt, runAtGo, statsZero, GetPerOperatorCost, GetOperatorStats,
      destructorReport, List.range_succ]

/-- C2: on a measured run, a `time_per_op_` length differing from the node
count makes the run abort with the descriptive size-mismatch error before
any chain executes: the returned state differs from the pre-run state only
in `runs_`, so no `Stats` entry (per-operator or per-type) is mutated. -/
theorem C2_structural_enforce (net : ProfDAGNet) (chains : List (List Nat))
    (timeOf : Nat → ℚ) (okOf : Nat → Bool) (h1 : 1 ≤ net.runs_)
    (h2 : net.time_per_op_.length ≠ net.operator_nodes_.length) :
    DoRunAsync net chains timeOf okOf
      = ({ net with runs_ := net.runs_ + 1 },
        .error (sizeMismatchMsg net.time_per_op_.length net.operator_nodes_.length)) := by
  simp only [DoRunAsync]
  rw [if_neg (by simp; omega), if_neg (by simpa using h2)]

/-- C2, witness: the abort at a concrete mismatched net. -/
theorem C2_witness :
    ((1 : ℤ) ≤ c2BadNet.runs_
      ∧ c2BadNet.time_per_op_.length ≠ c2BadNet.operator_nodes_.length)
    ∧ DoRunAsync c2BadNet [[0]] (fun _ => 0) (fun _ => true)
        = ({ c2BadNet with runs_ := c2BadNet.runs_ + 1 },
          .error (sizeMismatchMsg c2BadNet.time_per_op_.length
            c2BadNet.operator_nodes_.length)) :=
  ⟨⟨by decide, by decide⟩,
    C2_structural_enforce c2BadNet [[0]] (fun _ => 0) (fun _ => true)
      (by decide) (by decide)⟩

/-- C4: a run starting from `runs_ = 0` is a warm-up run: every chain's
operators execute (their flags are conjoined into the result), but the
state is unchanged except for `runs_ := 1` — in particular neither
`time_per_op_` nor `time_per_op_type_` is touched, no timing happens
(`timeOf` does not occur in the state), and afterwards
`measuredRuns = runs_ - 1 = 0`. -/
theorem C4_warmup_frame (net : ProfDAGNet) (chains : List (List Nat))
    (timeOf : Nat → ℚ) (okOf : Nat → Bool) (h : net.runs_ = 0) :
    DoRunAsync net chains timeOf okOf
        = ({ net with runs_ := 1 }, .ok (chains.all (fun c => c.all okOf)))
      ∧ (DoRunAsync net chains timeOf okOf).1.time_per_op_ = net.time_per_op_
      ∧ (DoRunAsync net chains timeOf okOf).1.time_per_op_type_
          = net.time_per_op_type_
      ∧ (DoRunAsync net chains timeOf okOf).1.runs_ - 1 = 0 := by
  have hw := DoRunAsync_warm net chains timeOf okOf (le_of_eq h)
  rw [hw]
  refine ⟨by simp [h], rfl, rfl, by simp [h]⟩

/-- C4, witness: the warm-up frame condition at a concrete fresh net. -/
theorem C4_witness :
    oneOpNet0.runs_ = 0
    ∧ DoRunAsync oneOpNet0 [[0]] (fun _ => 7) (fun _ => true)
        = ({ oneOpNet0 with runs_ := 1 }, .ok true) :=
  ⟨rfl, by
    have h := C4_warmup_frame oneOpNet0 [[0]] (fun _ => 7) (fun _ => true) rfl
    simpa using h.1⟩

/-- C6: with one warm-up run and two measured runs of 4 ms and 6 ms, node 0
holds `sum = 10`, `sqrsum = 52` (and an untouched `cnt = 0`);
`measuredRuns = 2`, the derived mean is `10/2 = 5`, the stddev radicand is
`52/2 - 25 = 1` and the stddev is `sqrt 1 = 1`. -/
theorem C6_two_run_numbers :
    statAt oneOpRun46.time_per_op_ 0 = { sum := 10, sqrsum := 52, cnt := 0 }
    ∧ oneOpRun46.runs_ - 1 = 2
    ∧ (ProtoMsg oneOpRun46 ("i", statAt oneOpRun46.time_per_op_ 0)).mean = 5
    ∧ (ProtoMsg oneOpRun46 ("i", statAt oneOpRun46.time_per_op_ 0)).stddevSqr
        = 52 / 2 - 5 * 5
    ∧ (ProtoMsg oneOpRun46 ("i", statAt oneOpRun46.time_per_op_ 0)).stddevSqr = 1
    ∧ Real.sqrt
        ((ProtoMsg oneOpRun46 ("i", statAt oneOpRun46.time_per_op_ 0)).stddevSqr : ℝ)
        = 1 := by
  have h5 : (ProtoMsg oneOpRun46 ("i", statAt oneOpRun46.time_per_op_ 0)).stddevSqr
      = 1 := by
    norm_num [oneOpRun46, oneOpRun4, oneOpWarm, oneOpNet0, profDAGNetInit, DoRunAsync,
      DAGNetBaseDoRunAsync, baseRunGo, RunAt, runAtGo, aggLoop1, aggLoop2,
      accumChainTimes, statAt, mapUpd, mapGetD, statsZero, nodeAt, addOp, ProtoMsg]
  refine ⟨?_, ?_, ?_, ?_, h5, by rw [h5]; norm_num⟩ <;>
    norm_num [oneOpRun46, oneOpRun4, oneOpWarm, oneOpNet0, profDAGNetInit, DoRunAsync,
      DAGNetBaseDoRunAsync, baseRunGo, RunAt, runAtGo, aggLoop1, aggLoop2,
      accumChainTimes, statAt, mapUpd, mapGetD, statsZero, nodeAt, addOp, ProtoMsg]

/-- C7: construction produces `time_per_op_` as exactly `nodeCount` zeroed
`Stats` entries, and no run ever changes its length. -/
theorem C7_fixed_zeroed_vector (name : String) (nodes : List OperatorDef)
    (net : ProfDAGNet) (chains : List (List Nat)) (timeOf : Nat → ℚ)
    (okOf : Nat → Bool) :
    (profDAGNetInit name nodes).time_per_op_
        = List.replicate nodes.length statsZero
    ∧ (profDAGNetInit name nodes).time_per_op_.length = nodes.length
    ∧ (DoRunAsync net chains timeOf okOf).1.time_per_op_.length
        = net.time_per_op_.length :=
  ⟨rfl, by simp [profDAGNetInit], DoRunAsync_length net chains timeOf okOf⟩

/-- C3: a measured run on the two-"Add"-node net in which the nodes take
`t0` and `t1` ms (with arbitrary prior per-op stats — in particular the
prior `sqrsum` values never enter, only the running sums are diffed —
and an arbitrary prior per-type map, and regardless of operator success):
`PerTypeTimers["Add"]` gains `sum += t0 + t1`, `sqrsum += (t0 + t1)²` and
invocation count `+= 2`; at `t0 = 3, t1 = 5` that is `sum += 8`,
`sqrsum += 64`, count `+= 2`. -/
theorem C3_per_type_aggregation (s0 s1 : Stats) (m : List (String × Stats))
    (t0 t1 : ℚ) (okOf : Nat → Bool) :
    mapGetD statsZero
        ((DoRunAsync (twoAddNet s0 s1 m) [[0, 1]]
          (fun i => if i = 0 then t0 else t1) okOf).1.time_per_op_type_) "Add"
      = { sum := (mapGetD statsZero m "Add").sum + (t0 + t1),
          sqrsum := (mapGetD statsZero m "Add").sqrsum + (t0 + t1) * (t0 + t1),
          cnt := (mapGetD statsZero m "Add").cnt + 2 } := by
  rw [DoRunAsync_measured _ _ _ _ (by norm_num [twoAddNet]) (by norm_num [twoAddNet])
    (by
      intro c hc i hi
      simp only [List.mem_singleton] at hc
      subst hc
      simp only [twoAddNet, List.length_cons, List.length_nil]
      simp at hi
      rcases hi with h | h <;> omega)]
  simp only [twoAddNet, accumRunTimes, List.foldl_cons, List.foldl_nil,
    accumChainTimes, statAt, aggLoop1, aggLoop2, addOp]
  norm_num [mapUpd, mapGetD, statAt, Stats.mk.injEq]
  omega

/-- C5: the flag a chain returns is the non-short-circuit conjunction of
its operators' flags (false as soon as one operator fails), while the state
update is completely independent of the success values: on a measured run
every operator of the chain is timed and accumulated even after an earlier
failure. -/
theorem C5_chain_success (net : ProfDAGNet) (chain : List Nat) (timeOf : Nat → ℚ)
    (okOf : Nat → Bool) (hb : ∀ i ∈ chain, i < net.time_per_op_.length) :
    (RunAt net chain timeOf okOf).2 = .ok (chain.all okOf)
    ∧ (∀ j ∈ chain, okOf j = false → (RunAt net chain timeOf okOf).2 = .ok false)
    ∧ (RunAt net chain timeOf okOf).1 = (RunAt net chain timeOf (fun _ => false)).1
    ∧ (1 < net.runs_ →
        (RunAt net chain timeOf okOf).1.time_per_op_
          = accumChainTimes timeOf net.time_per_op_ chain) := by
  have hfail : ∀ j ∈ chain, okOf j = false → chain.all okOf = false := by
    intro j hj hjf
    simp only [List.all_eq_false]
    exact ⟨j, hj, by simp [hjf]⟩
  by_cases h : net.runs_ ≤ 1
  · simp only [RunAt, runAtGo_warm _ _ _ _ _ h]
    exact ⟨by simp, fun j hj hjf => by simp [hfail j hj hjf], trivial,
      fun h' => absurd h (by omega)⟩
  · have h1 : 1 < net.runs_ := by omega
    simp only [RunAt, runAtGo_measured _ _ _ _ _ h1 hb]
    exact ⟨by simp, fun j hj hjf => by simp [hfail j hj hjf], trivial,
      fun _ => trivial⟩

/-- C5, witness: a two-node measured chain whose second operator fails. -/
theorem C5_witness :
    (∀ i ∈ ([0, 1] : List Nat), i < c5Net.time_per_op_.length)
    ∧ ((RunAt c5Net [0, 1] (fun _ => 1) (fun i => i == 0)).2
          = .ok (([0, 1] : List Nat).all (fun i => i == 0))
      ∧ (∀ j ∈ ([0, 1] : List Nat), (fun i => i == 0) j = false →
          (RunAt c5Net [0, 1] (fun _ => 1) (fun i => i == 0)).2 = .ok false)
      ∧ (RunAt c5Net [0, 1] (fun _ => 1) (fun i => i == 0)).1
          = (RunAt c5Net [0, 1] (fun _ => 1) (fun _ => false)).1
      ∧ (1 < c5Net.runs_ →
          (RunAt c5Net [0, 1] (fun _ => 1) (fun i => i == 0)).1.time_per_op_
            = accumChainTimes (fun _ => 1) c5Net.time_per_op_ [0, 1])) := by
  have hb : ∀ i ∈ ([0, 1] : List Nat), i < c5Net.time_per_op_.length := by decide
  exact ⟨hb, C5_chain_success c5Net [0, 1] (fun _ => 1) (fun i => i == 0) hb⟩

/-- C8: `GetPerOperatorCost` yields one record per node index in index
order, named by the composite key built from the net name, the node index
and the operator type; on the net with two "Add" nodes at indices 0 and 1
the two names are distinct. -/
theorem C8_per_op_cost_names (net : ProfDAGNet)
    (h : net.time_per_op_.length = net.operator_nodes_.length) :
    ((GetPerOperatorCost net).toOption.map (fun l => l.map ProfDAGProto.name)
        = some ((List.range net.operator_nodes_.length).map (perOpCostName net)))
    ∧ (GetPerOperatorCost c8Net).toOption.map (fun l => l.map ProfDAGProto.name)
        = some [perOpCostName c8Net 0, perOpCostName c8Net 1]
    ∧ perOpCostName c8Net 0 = "ex___0___Add"
    ∧ perOpCostName c8Net 1 = "ex___1___Add"
    ∧ perOpCostName c8Net 0 ≠ perOpCostName c8Net 1 := by
  have hgen : ∀ net' : ProfDAGNet,
      net'.time_per_op_.length = net'.operator_nodes_.length →
      (GetPerOperatorCost net').toOption.map (fun l => l.map ProfDAGProto.name)
        = some ((List.range net'.operator_nodes_.length).map (perOpCostName net')) := by
    intro net' h'
    simp [GetPerOperatorCost, h', ProtoMsg, Except.toOption, List.map_map,
      Function.comp]
  refine ⟨hgen net h, ?_, by decide, by decide, by decide⟩
  rw [hgen c8Net (by simp [c8Net, profDAGNetInit])]
  norm_num [c8Net, profDAGNetInit, List.range_succ]

/-- C8, witness: the size precondition and the distinct composite names at
the concrete two-"Add"-node net. -/
theorem C8_witness :
    c8Net.time_per_op_.length = c8Net.operator_nodes_.length
    ∧ perOpCostName c8Net 0 ≠ perOpCostName c8Net 1 := by
  have h : c8Net.time_per_op_.length = c8Net.operator_nodes_.length := by
    simp [c8Net, profDAGNetInit]
  exact ⟨h, (C8_per_op_cost_names c8Net h).2.2.2.2⟩

/-- C9: a measured run increments `RunCounter` and folds the run's per-type
deltas and invocation counts into the statistics regardless of operator
success — the resulting state is identical to that of an all-failing run —
while the underlying success flag is returned unchanged. -/
theorem C9_failed_runs_still_aggregate (net : ProfDAGNet)
    (chains : List (List Nat)) (timeOf : Nat → ℚ) (okOf : Nat → Bool)
    (h : 1 ≤ net.runs_)
    (hlen : net.time_per_op_.length = net.operator_nodes_.length)
    (hb : ∀ c ∈ chains, ∀ i ∈ c, i < net.time_per_op_.length) :
    (DoRunAsync net chains timeOf okOf).1.runs_ = net.runs_ + 1
    ∧ (DoRunAsync net chains timeOf okOf).2
        = .ok (chains.all (fun c => c.all okOf))
    ∧ (DoRunAsync net chains timeOf okOf).1
        = (DoRunAsync net chains timeOf (fun _ => false)).1 := by
  have ha := DoRunAsync_measured net chains timeOf okOf h hlen hb
  have hf := DoRunAsync_measured net chains timeOf (fun _ => false) h hlen hb
  rw [ha, hf]
  exact ⟨rfl, rfl, rfl⟩

/-- C9, witness: a measured run whose only operator fails. -/
theorem C9_witness :
    ((1 : ℤ) ≤ oneOpWarm.runs_
      ∧ oneOpWarm.time_per_op_.length = oneOpWarm.operator_nodes_.length
      ∧ (∀ c ∈ ([[0]] : List (List Nat)), ∀ i ∈ c,
          i < oneOpWarm.time_per_op_.length))
    ∧ ((DoRunAsync oneOpWarm [[0]] (fun _ => 4) (fun _ => false)).1.runs_
          = oneOpWarm.runs_ + 1
      ∧ (DoRunAsync oneOpWarm [[0]] (fun _ => 4) (fun _ => false)).2
          = .ok (([[0]] : List (List Nat)).all (fun c => c.all (fun _ => false)))
      ∧ (DoRunAsync oneOpWarm [[0]] (fun _ => 4) (fun _ => false)).1
          = (DoRunAsync oneOpWarm [[0]] (fun _ => 4) (fun _ => false)).1) := by
  have hw1 : (1 : ℤ) ≤ oneOpWarm.runs_ := by
    simp [oneOpWarm, oneOpNet0, profDAGNetInit, DoRunAsync, DAGNetBaseDoRunAsync,
      baseRunGo, RunAt, runAtGo]
  have hw2 : oneOpWarm.time_per_op_.length = oneOpWarm.operator_nodes_.length := by
    simp [oneOpWarm, oneOpNet0, profDAGNetInit, DoRunAsync, DAGNetBaseDoRunAsync,
      baseRunGo, RunAt, runAtGo]
  have hw3 : ∀ c ∈ ([[0]] : List (List Nat)), ∀ i ∈ c,
      i < oneOpWarm.time_per_op_.length := by
    simp [oneOpWarm, oneOpNet0, profDAGNetInit, DoRunAsync, DAGNetBaseDoRunAsync,
      baseRunGo, RunAt, runAtGo]
  exact ⟨⟨hw1, hw2, hw3⟩,
    C9_failed_runs_still_aggregate oneOpWarm [[0]] (fun _ => 4) (fun _ => false)
      hw1 hw2 hw3⟩

/-- C10: no operation ever increments the `cnt` field of a per-operator
`Stats` entry — a full run preserves every such `cnt`, construction zeroes
them — and the reported per-node mean/stddev never read it: `ProtoMsg` is
unchanged under any `cnt` value, and the per-node section of `PrintStats`
is unchanged when every entry's `cnt` is overwritten (the divisor is
`measuredRuns = runs_ - 1`, not the entry's own count). -/
theorem C10_cnt_never_incremented (net : ProfDAGNet) (chains : List (List Nat))
    (timeOf : Nat → ℚ) (okOf : Nat → Bool) (idx : Nat) (nm : String)
    (nodes : List OperatorDef) (s : Stats) (c : ℤ) :
    (statAt (DoRunAsync net chains timeOf okOf).1.time_per_op_ idx).cnt
        = (statAt net.time_per_op_ idx).cnt
    ∧ (statAt (profDAGNetInit nm nodes).time_per_op_ idx).cnt = 0
    ∧ ProtoMsg net (nm, { s with cnt := c }) = ProtoMsg net (nm, s)
    ∧ (PrintStats { net with
          time_per_op_ := net.time_per_op_.map (fun s' => { s' with cnt := c }) }).toOption.map
            Prod.fst
        = (PrintStats net).toOption.map Prod.fst := by
  refine ⟨DoRunAsync_cnt net chains timeOf okOf idx, ?_, rfl,
    printStats_cnt_indep net c⟩
  simp [profDAGNetInit, statAt, List.getD_eq_getElem?_getD, List.getElem?_replicate]
  split <;> rfl

end ProfDag
